import Mathlib

/-
Verification of the news-aggregation core of the boletim-noticias-agricolas
repository (app.py and scraper.py), as a shallow embedding in Lean 4.

Conventions of the embedding:
* timestamps are naive instants measured in whole seconds, modelled as `Int`;
  `datetime.utcnow()` becomes an explicit `now : Int` parameter (the Python
  code calls `utcnow()` at several points inside one loop; the embedding uses
  a single instant per call, which is the standard abstraction for these
  recency checks);
* network fetches and HTML parsing are opaque to the properties below, so a
  fetched document is abstracted into the fields the scraper actually reads
  (`Doc`), and a candidate fetch becomes a function `String → Option Article`;
* Python exceptions become `Except Unit`; an uncaught exception is
  `Except.error ()`, a `try/except` that substitutes a default becomes a
  `match` on the `Except` value;
* Python dict/set state becomes explicit values: the news cache is the pair
  (article list, generation timestamp).
-/

/-- `Article` dataclass, scraper.py lines 21-34.  `published_at` is the naive
timestamp in seconds. -/
structure Article where
  topic_key : String
  topic_label : String
  title : String
  summary : String
  url : String
  image_url : String
  published_at : Int
  source : String
deriving DecidableEq, Repr

/-- A listing candidate: the dict `{url, title, listed_at}` built by the
`_parse_listing` methods (scraper.py lines 220-226, 559-563, 703-707). -/
structure Candidate where
  url : String
  title : String
  listed_at : Int
deriving DecidableEq, Repr

/-- The fields of a fetched article document that the `_build_article`
methods actually inspect: HTTP status, hero image (og:image or in-body
fallback), title element, extracted summary, and the publish timestamp
recovered by date extraction (`none` when no date could be parsed). -/
structure Doc where
  status : Nat
  image : Option String
  title : Option String
  summary : Option String
  extracted_at : Option Int
deriving DecidableEq, Repr

/-- `LEAD_TIME_DAYS = 7`, scraper.py line 18. -/
def LEAD_TIME_DAYS : Int := 7

/-- `self.lead_time = timedelta(days=LEAD_TIME_DAYS)`, in seconds. -/
def lead_time : Int := LEAD_TIME_DAYS * 86400

/-- Whether the character list `l` starts with the pattern `pat`.  The string
helpers below are written by structural recursion over `List Char` (rather
than through the iterator-based library functions) so that every concrete
evaluation reduces inside the kernel. -/
def starts_with_chars : List Char → List Char → Bool
  | _, [] => true
  | [], _ :: _ => false
  | c :: cs, p :: ps => c == p && starts_with_chars cs ps

/-- Whether the pattern occurs anywhere in the character list (Python
`needle in haystack`). -/
def contains_chars : List Char → List Char → Bool
  | [], pat => pat.isEmpty
  | c :: cs, pat => starts_with_chars (c :: cs) pat || contains_chars cs pat

/-- Substring test on strings (Python `needle in haystack`). -/
def contains_sub (s pat : String) : Bool :=
  contains_chars s.data pat.data

/-- Python `str.lower()` restricted to ASCII letters (the keyword tables and
source names only rely on ASCII case-folding). -/
def lower_str (s : String) : String :=
  ⟨s.data.map Char.toLower⟩

/-- Splits at the first occurrence of `ch`: the characters before it, and
(when it occurs) the characters after it. -/
def break_at (ch : Char) : List Char → List Char × Option (List Char)
  | [] => ([], none)
  | c :: cs =>
    if c == ch then ([], some cs)
    else
      let r := break_at ch cs
      (c :: r.1, r.2)

/-- Splits at the first occurrence of the three-character scheme separator
`://`: the scheme before it and the remainder after it, when present. -/
def split_scheme : List Char → Option (List Char × List Char)
  | [] => none
  | c :: cs =>
    if starts_with_chars (c :: cs) [':', '/', '/'] then some ([], cs.drop 2)
    else
      match split_scheme cs with
      | none => none
      | some r => some (c :: r.1, r.2)

/-- Splits a character list on every occurrence of `ch`. -/
def split_char (ch : Char) : List Char → List (List Char)
  | [] => [[]]
  | c :: cs =>
    let r := split_char ch cs
    if c == ch then [] :: r
    else
      match r with
      | [] => [[c]]
      | g :: gs => (c :: g) :: gs

/-- Joins character groups with `ch` between them. -/
def join_with (ch : Char) : List (List Char) → List Char
  | [] => []
  | [g] => g
  | g :: gs => g ++ ch :: join_with ch gs

/-- Keys of query parameters regarded as click-tracking. -/
def is_tracking_chars (p : List Char) : Bool :=
  starts_with_chars p "utm_".data || starts_with_chars p "fbclid".data ||
    starts_with_chars p "gclid".data

/-- Modelled from the spec: `app.py` (line 18) imports `normalize_url` from
the scraper module, but the provided scraper source does not define it — the
definition is missing from the sources.  The spec fixes its meaning: the
dedup identity key is the URL "after normalization (scheme/host case-folded,
trailing slash and tracking parameters stripped)".  This definition
implements exactly those words: the scheme and the host (the segment between
`://` and the next `/`) are lowercased, one trailing slash is removed from
the part before the query, and tracking query parameters are dropped. -/
def normalize_url (u : String) : String :=
  let bq := break_at '?' u.data
  let base :=
    match split_scheme bq.1 with
    | none => bq.1
    | some sh =>
      match break_at '/' sh.2 with
      | (host, none) =>
        sh.1.map Char.toLower ++ [':', '/', '/'] ++ host.map Char.toLower
      | (host, some rest) =>
        sh.1.map Char.toLower ++ [':', '/', '/'] ++ host.map Char.toLower ++ '/' :: rest
  let base2 := if base.getLast? == some '/' then base.dropLast else base
  let query := match bq.2 with | none => [] | some q => split_char '&' q
  let keep := query.filter (fun p => !(p.isEmpty) && !(is_tracking_chars p))
  if keep.isEmpty then ⟨base2⟩ else ⟨base2 ++ '?' :: join_with '&' keep⟩

/-- `TOPIC_CONFIG[k]["label"]` (scraper.py lines 37-95); the empty string
stands for the impossible missing-key case (every call site passes one of the
six configured keys). -/
def topic_label_of (k : String) : String :=
  if k == "defensivos" then "Defensivos"
  else if k == "fertilizantes" then "Fertilizantes"
  else if k == "irrigacao" then "Irrigação"
  else if k == "soja" then "Soja"
  else if k == "milho" then "Milho"
  else if k == "cafe" then "Café"
  else ""

/-- Lexical topic classification of the Global Crop Protection builders
(scraper.py lines 503-514 and 620-631): first matching rule wins, default
topic "defensivos". -/
def gcp_topic_key (text : String) : String :=
  if ["fertiliz", "fertilizer", "nutri", "nutrição", "nutrient", "nue", "foliar"].any (contains_sub text) then "fertilizantes"
  else if ["irrig", "irrigation"].any (contains_sub text) then "irrigacao"
  else if ["soy", "soja"].any (contains_sub text) then "soja"
  else if ["corn", "milho"].any (contains_sub text) then "milho"
  else if ["coffee", "café", "cafe"].any (contains_sub text) then "cafe"
  else "defensivos"

/-- Lexical topic classification of the Agrolink builder (scraper.py lines
767-778). -/
def agrolink_topic_key (text : String) : String :=
  if ["fertiliz", "adubo", "fertilizer", "nutri", "nutrição", "nutrient", "nue", "foliar"].any (contains_sub text) then "fertilizantes"
  else if ["irrig", "irrigação", "irrigation"].any (contains_sub text) then "irrigacao"
  else if contains_sub text "soja" || contains_sub text "soy" then "soja"
  else if contains_sub text "milho" || contains_sub text "corn" then "milho"
  else if contains_sub text "café" || contains_sub text "cafe" || contains_sub text "coffee" then "cafe"
  else "defensivos"

/-- `NoticiasAgricolasScraper._build_article` (scraper.py lines 242-275) over
an abstracted document: non-200 status, missing hero image, missing title and
missing summary each reject the candidate; a missing extracted publish date
is defaulted to the current instant (lines 261-263). -/
def na_build_article (now : Int) (topic_key url : String) (doc : Doc) : Option Article :=
  if doc.status ≠ 200 then none
  else match doc.image with
  | none => none
  | some img =>
    match doc.title with
    | none => none
    | some t =>
      match doc.summary with
      | none => none
      | some s =>
        let published_at := doc.extracted_at.getD now
        some ⟨topic_key, topic_label_of topic_key, t, s, url, img, published_at, "Notícias Agrícolas"⟩

/-- `GlobalCropProtectionScraper._build_article` (scraper.py lines 568-642):
non-200 status, missing title and missing image reject; the summary falls
back to the title text; a candidate with no extractable publish date is
rejected outright (lines 615-618). -/
def gcp_build_article (url : String) (doc : Doc) : Option Article :=
  if doc.status ≠ 200 then none
  else match doc.title with
  | none => none
  | some t =>
    match doc.image with
    | none => none
    | some img =>
      let s := doc.summary.getD t
      match doc.extracted_at with
      | none => none
      | some p =>
        let k := gcp_topic_key ((lower_str (t ++ " " ++ s)))
        some ⟨k, topic_label_of k, t, s, url, img, p, "Global Crop Protection"⟩

/-- `AgrolinkScraper._build_article` (scraper.py lines 712-789): non-200
status, missing title and missing image reject; the summary falls back to the
title text; a missing extracted publish date is defaulted to the current
instant (lines 765-766). -/
def agrolink_build_article (now : Int) (url : String) (doc : Doc) : Option Article :=
  if doc.status ≠ 200 then none
  else match doc.title with
  | none => none
  | some t =>
    match doc.image with
    | none => none
    | some img =>
      let s := doc.summary.getD t
      let published_at := doc.extracted_at.getD now
      let k := agrolink_topic_key ((lower_str (t ++ " " ++ s)))
      some ⟨k, topic_label_of k, t, s, url, img, published_at, "Agrolink"⟩

/-- The candidate loop of `NoticiasAgricolasScraper._fetch_topic_articles`
(scraper.py lines 173-189): skip candidates whose listing timestamp is
outside the lead-time window, build the article (a failed build skips the
candidate), skip again when the authoritative published timestamp is outside
the window, skip off-topic articles, and stop once `max_results` are
collected.  The document fetch is the parameter `build`; the topic keyword
check `_matches_topic` is the parameter `matches_topic`. -/
def fetch_topic_loop (now : Int) (build : String → Option Article)
    (matches_topic : Article → Bool) (max_results : Nat) :
    List Candidate → List Article → List Article
  | [], collected => collected
  | item :: rest, collected =>
    if lead_time < now - item.listed_at then
      fetch_topic_loop now build matches_topic max_results rest collected
    else
      match build item.url with
      | none => fetch_topic_loop now build matches_topic max_results rest collected
      | some article =>
        if lead_time < now - article.published_at then
          fetch_topic_loop now build matches_topic max_results rest collected
        else if !(matches_topic article) then
          fetch_topic_loop now build matches_topic max_results rest collected
        else
          let collected1 := collected ++ [article]
          if max_results ≤ collected1.length then collected1
          else fetch_topic_loop now build matches_topic max_results rest collected1

/-- `NoticiasAgricolasScraper._fetch_topic_articles` (scraper.py lines
165-191), starting from an empty accumulator. -/
def fetch_topic_articles (now : Int) (build : String → Option Article)
    (matches_topic : Article → Bool) (max_results : Nat) (listing : List Candidate) : List Article :=
  fetch_topic_loop now build matches_topic max_results listing []

/-- One acceptance step of the merge loop in `fetch_dashboard_articles`
(scraper.py lines 353-357 and the two analogous blocks): the candidate is
appended only when no already-combined article has the same (exact) URL. -/
def append_if_new (combined : List Article) (a : Article) : List Article :=
  if combined.any (fun x => x.url == a.url) then combined else combined ++ [a]

/-- One source visit of the merge loop: when the source still has items,
take its head through `append_if_new` and advance the cursor (the cursor
advances whether or not the item was accepted). -/
def step_source (combined : List Article) : List Article → List Article × List Article
  | [] => (combined, [])
  | a :: rest => (append_if_new combined a, rest)

/-- The round-robin `while` loop of `fetch_dashboard_articles` (scraper.py
lines 347-372) with an explicit fuel argument; the loop exits when the
combined output reaches 15 or every cursor is exhausted, and checks the
15-bound between source visits exactly as the `break` statements do.  Each
non-final iteration consumes at least one source item, so any fuel of at
least the total input length plus one computes the loop's result. -/
def merge_loop : Nat → List Article → List Article → List Article → List Article → List Article
  | 0, combined, _, _, _ => combined
  | Nat.succ fuel, combined, na, gcp, ag =>
    if 15 ≤ combined.length then combined
    else if na.isEmpty && gcp.isEmpty && ag.isEmpty then combined
    else
      let p1 := step_source combined na
      if 15 ≤ p1.1.length then p1.1
      else
        let p2 := step_source p1.1 gcp
        if 15 ≤ p2.1.length then p2.1
        else
          let p3 := step_source p2.1 ag
          merge_loop fuel p3.1 p1.2 p2.2 p3.2

/-- The merge of `fetch_dashboard_articles` (scraper.py lines 347-373) as a
function of the three per-source lists. -/
def fetch_dashboard_merge (na_items gcp_items ag_items : List Article) : List Article :=
  merge_loop (na_items.length + gcp_items.length + ag_items.length + 1) [] na_items gcp_items ag_items

/-- `fetch_dashboard_articles` (scraper.py lines 330-373) at the level of
adapter outcomes: the two secondary adapter calls sit inside `try/except`
blocks that substitute an empty list (lines 335-345), while the primary
Notícias Agrícolas call (line 333) is not guarded, so its exception
propagates to the caller. -/
def fetch_dashboard_articles (na gcp ag : Except Unit (List Article)) : Except Unit (List Article) :=
  match na with
  | Except.error e => Except.error e
  | Except.ok na_items =>
    let gcp_items := match gcp with | Except.ok l => l | Except.error _ => []
    let ag_items := match ag with | Except.ok l => l | Except.error _ => []
    Except.ok (fetch_dashboard_merge na_items gcp_items ag_items)

/-- `_has_external_sources` (app.py lines 191-196) applied to the cached
article list. -/
def has_external_sources (arts : List Article) : Bool :=
  arts.any (fun a => !(a.source == "Notícias Agrícolas"))

/-- The truncation applied by the `/api/news` handler (app.py line 264) and
the index route (line 247) to the cached article list. -/
def api_news_articles (cache : List Article) : List Article :=
  if has_external_sources cache then cache.take 15 else cache.take 9

/-- Modelled from the spec for comparison with the code: the spec's output
size contract keys the 15-bound on "multi-source diversity ... achieved at
least once since process start", i.e. on the whole history of committed
cache states rather than on the current one. -/
def spec_achieved_once (history : List (List Article)) : Bool :=
  history.any has_external_sources

/-- The inner helper `add_if_needed` of `_complete_with_previous_sources`
(app.py lines 201-208).  The Python closure mutates `out` and the set
`by_url`; here both are threaded explicitly, the set as the list of its
elements with `contains` as membership. -/
def add_if_needed (total : Nat) : List Article → List String → List Article → List Article × List String
  | [], by_url, out => (out, by_url)
  | a :: rest, by_url, out =>
    if by_url.contains (normalize_url a.url) then add_if_needed total rest by_url out
    else
      let out1 := out ++ [a]
      let by_url1 := by_url ++ [normalize_url a.url]
      if total ≤ out1.length then (out1, by_url1)
      else add_if_needed total rest by_url1 out1

/-- The three required sources (app.py line 211).  In Python this is a `set`
whose iteration order is unspecified; the fixed order below is one possible
order, and none of the properties proved here depend on it. -/
def required_sources : List String :=
  ["Notícias Agrícolas", "Global Crop Protection", "Agrolink"]

/-- The `for s in missing` loop of `_complete_with_previous_sources` (app.py
lines 213-216): backfill from the previous articles of each missing source,
stopping once the target size is reached. -/
def missing_loop : List String → List Article → Nat → List Article → List String → List Article × List String
  | [], _, _, out, by_url => (out, by_url)
  | s :: rest, prev, total, out, by_url =>
    let r := add_if_needed total (prev.filter (fun a => a.source == s)) by_url out
    if total ≤ r.1.length then r
    else missing_loop rest prev total r.1 r.2

/-- `_complete_with_previous_sources` (app.py lines 199-219): seed the seen
set with the normalized URLs of the fresh articles, backfill the previous
cycle's articles for each required source absent from the fresh set, top up
from the whole previous list when still short, and truncate to `total`. -/
def complete_with_previous_sources (fresh prev : List Article) (total : Nat) : List Article :=
  let by_url := fresh.map (fun a => normalize_url a.url)
  let missing := required_sources.filter (fun s => !(fresh.any (fun a => a.source == s)))
  let r := missing_loop missing prev total fresh by_url
  let r2 := if r.1.length < total then add_if_needed total prev r.2 r.1 else r
  r2.1.take total

/-- One iteration of the body of `_refresh_news_loop` (app.py lines 123-129),
also the body of `refresh_news_async_once` (lines 169-175): the whole fetch
and commit sits in `try/except Exception: pass`, so a raising fetch leaves
the cache pair untouched, while a successful fetch commits its article list
(whatever it is) together with the new timestamp. -/
def refresh_news_once (cache : List Article × Option Int) (now : Int)
    (fetched : Except Unit (List Article)) : List Article × Option Int :=
  match fetched with
  | Except.error _ => cache
  | Except.ok arts => (arts, some now)

/-- The news cache pair (app.py line 26): article list and generation
timestamp. -/
structure CacheState where
  articles : List Article
  generated_at : Int
deriving DecidableEq, Repr

/-- The article list read by the first dict access of the unlocked return
statement of `get_cached_articles` (app.py line 108), after `i` of the
writer's two stores (articles at line 125, timestamp at line 126, both under
`news_lock`) have completed.  Each dict store and load is atomic; the reader
holds no lock, so `i` ranges over 0, 1, 2. -/
def observed_articles (old new : CacheState) (i : Nat) : List Article :=
  if i == 0 then old.articles else new.articles

/-- The timestamp read by the second dict access of the same return
statement, after `j` writer stores have completed: the timestamp store is the
writer's second step, so the old value is observed while `j ≤ 1`. -/
def observed_timestamp (old new : CacheState) (j : Nat) : Int :=
  if j ≤ 1 then old.generated_at else new.generated_at

/-- The pair observed by a reader whose first read races at writer progress
`i` and whose second read races at writer progress `j` (program order of the
reader forces `i ≤ j`). -/
def reader_observation (old new : CacheState) (i j : Nat) : List Article × Int :=
  (observed_articles old new i, observed_timestamp old new j)

/-- A minimal concrete article for the concrete evaluations below. -/
def mk_article (src u : String) : Article :=
  ⟨"soja", "Soja", "titulo", "resumo", u, "img", 0, src⟩

/-- Fresh article lists for the concrete completion scenario: fourteen
primary-source articles and one Global Crop Protection article (fifteen in
all), so that exactly the Agrolink source contributes zero articles. -/
def c1_fresh : List Article :=
  (List.range 14).map (fun n => mk_article "Notícias Agrícolas" ("na" ++ toString n))
    ++ [mk_article "Global Crop Protection" "g0"]

/-- The previous cycle's cache for the completion scenarios: one Agrolink
article. -/
def c1_prev : List Article := [mk_article "Agrolink" "p0"]

/-- A small fresh set with room left below the target size. -/
def c1w_fresh : List Article :=
  [mk_article "Notícias Agrícolas" "na0", mk_article "Global Crop Protection" "g0"]

/-- Two articles whose URLs differ only by a trailing slash, so they share a
normalized URL but not an exact one. -/
def c2_na : Article := mk_article "Notícias Agrícolas" "https://example.com/news/a/"

/-- See `c2_na`. -/
def c2_gcp : Article := mk_article "Global Crop Protection" "https://example.com/news/a"

/-- A committed cache state containing a non-primary-source article. -/
def c6_mixed : List Article :=
  [mk_article "Notícias Agrícolas" "na0", mk_article "Global Crop Protection" "g0"]

/-- A later committed cache state of twelve primary-source-only articles. -/
def c6_na_only : List Article :=
  (List.range 12).map (fun n => mk_article "Notícias Agrícolas" ("na" ++ toString n))

/-- An article whose publish timestamp lies eight days before instant 0. -/
def c7_old_article : Article :=
  ⟨"soja", "Soja", "t", "s", "u", "img", -691200, "Notícias Agrícolas"⟩

/-- A document with status 200, image, title and summary but no extractable
publish date. -/
def c8_doc_no_date : Doc := ⟨200, some "img", some "titulo", some "resumo", none⟩

/-- Cache states before and after one write, for the interleaving model. -/
def c9_old : CacheState := ⟨[], 0⟩

/-- See `c9_old`. -/
def c9_new : CacheState := ⟨[mk_article "Agrolink" "p0"], 1⟩

/-- `merge_loop` on positive fuel, one unfolding. -/
theorem merge_loop_succ (fuel : Nat) (combined na gcp ag : List Article) :
    merge_loop (fuel + 1) combined na gcp ag =
      if 15 ≤ combined.length then combined
      else if na.isEmpty && gcp.isEmpty && ag.isEmpty then combined
      else
        let p1 := step_source combined na
        if 15 ≤ p1.1.length then p1.1
        else
          let p2 := step_source p1.1 gcp
          if 15 ≤ p2.1.length then p2.1
          else
            let p3 := step_source p2.1 ag
            merge_loop fuel p3.1 p1.2 p2.2 p3.2 := rfl

/-- `append_if_new` preserves pairwise-distinct URLs. -/
theorem append_if_new_pairwise {c : List Article} (a : Article)
    (h : c.Pairwise (fun x y => x.url ≠ y.url)) :
    (append_if_new c a).Pairwise (fun x y => x.url ≠ y.url) := by
  unfold append_if_new
  split
  · exact h
  · rename_i hany
    refine List.pairwise_append.mpr ⟨h, List.pairwise_singleton _ _, ?_⟩
    intro x hx y hy
    simp only [List.mem_singleton] at hy
    subst hy
    intro e
    exact hany (List.any_eq_true.mpr ⟨x, hx, by simp [e]⟩)

/-- `step_source` preserves pairwise-distinct URLs. -/
theorem step_source_pairwise {c : List Article} (src : List Article)
    (h : c.Pairwise (fun x y => x.url ≠ y.url)) :
    ((step_source c src).1).Pairwise (fun x y => x.url ≠ y.url) := by
  cases src with
  | nil => exact h
  | cons a rest => exact append_if_new_pairwise a h

/-- `merge_loop` preserves pairwise-distinct URLs. -/
theorem merge_loop_pairwise (fuel : Nat) :
    ∀ (combined na gcp ag : List Article),
      combined.Pairwise (fun x y => x.url ≠ y.url) →
      (merge_loop fuel combined na gcp ag).Pairwise (fun x y => x.url ≠ y.url) := by
  induction fuel with
  | zero => intro combined na gcp ag h; simpa [merge_loop] using h
  | succ fuel ih =>
    intro combined na gcp ag h
    rw [merge_loop_succ]
    dsimp only
    split
    · exact h
    · split
      · exact h
      · split
        · exact step_source_pairwise na h
        · split
          · exact step_source_pairwise gcp (step_source_pairwise na h)
          · exact ih _ _ _ _
              (step_source_pairwise ag (step_source_pairwise gcp (step_source_pairwise na h)))

/-- `add_if_needed` only appends, and appends only elements of its input
sequence, recording their normalized URLs in the seen set. -/
theorem add_if_needed_spec (total : Nat) :
    ∀ (seq : List Article) (by_url : List String) (out : List Article),
      ∃ w, add_if_needed total seq by_url out =
          (out ++ w, by_url ++ w.map (fun a => normalize_url a.url)) ∧
        ∀ x ∈ w, x ∈ seq := by
  intro seq
  induction seq with
  | nil => intro by_url out; exact ⟨[], by simp [add_if_needed]⟩
  | cons a rest ih =>
    intro by_url out
    simp only [add_if_needed]
    split
    · obtain ⟨w, hw, hmem⟩ := ih by_url out
      exact ⟨w, hw, fun x hx => List.mem_cons_of_mem _ (hmem x hx)⟩
    · split
      · exact ⟨[a], by simp, by simp⟩
      · obtain ⟨w, hw, hmem⟩ := ih (by_url ++ [normalize_url a.url]) (out ++ [a])
        refine ⟨a :: w, ?_, ?_⟩
        · rw [hw]; simp
        · intro x hx
          rcases List.mem_cons.mp hx with h | h
          · exact h ▸ List.mem_cons_self _ _
          · exact List.mem_cons_of_mem _ (hmem x h)

/-- When the output has room and the sequence holds an article whose
normalized URL is unseen, `add_if_needed` appends at least one element of
the sequence, directly after the existing output. -/
theorem add_if_needed_progress (total : Nat) :
    ∀ (seq : List Article) (by_url : List String) (out : List Article),
      out.length < total →
      (∃ a ∈ seq, by_url.contains (normalize_url a.url) = false) →
      ∃ b w, (add_if_needed total seq by_url out).1 = out ++ b :: w ∧ b ∈ seq := by
  intro seq
  induction seq with
  | nil =>
    intro by_url out _ hex
    obtain ⟨a, ha, _⟩ := hex
    exact absurd ha (List.not_mem_nil a)
  | cons a rest ih =>
    intro by_url out hlen hex
    simp only [add_if_needed]
    split
    · rename_i hc
      obtain ⟨a0, ha0, hurl⟩ := hex
      rcases List.mem_cons.mp ha0 with h | h
      · subst h; rw [hc] at hurl; cases hurl
      · obtain ⟨b, w, hb, hmem⟩ := ih by_url out hlen ⟨a0, h, hurl⟩
        exact ⟨b, w, hb, List.mem_cons_of_mem _ hmem⟩
    · split
      · exact ⟨a, [], rfl, List.mem_cons_self _ _⟩
      · obtain ⟨w, hw, _⟩ :=
          add_if_needed_spec total rest (by_url ++ [normalize_url a.url]) (out ++ [a])
        refine ⟨a, w, ?_, List.mem_cons_self _ _⟩
        rw [hw]
        simp

/-- `missing_loop` on a single missing source is one `add_if_needed` pass
over the previous articles of that source. -/
theorem missing_loop_single (s : String) (prev : List Article) (total : Nat)
    (out : List Article) (by_url : List String) :
    missing_loop [s] prev total out by_url =
      add_if_needed total (prev.filter (fun a => a.source == s)) by_url out := by
  simp only [missing_loop]
  split
  · rfl
  · rfl

/-- `missing_loop` only appends, and appends only elements of `prev`. -/
theorem missing_loop_spec :
    ∀ (ss : List String) (prev : List Article) (total : Nat)
      (out : List Article) (by_url : List String),
      ∃ w, missing_loop ss prev total out by_url =
          (out ++ w, by_url ++ w.map (fun a => normalize_url a.url)) ∧
        ∀ x ∈ w, x ∈ prev := by
  intro ss
  induction ss with
  | nil => intro prev total out by_url; exact ⟨[], by simp [missing_loop]⟩
  | cons s rest ih =>
    intro prev total out by_url
    simp only [missing_loop]
    obtain ⟨w, hw, hmem⟩ :=
      add_if_needed_spec total (prev.filter (fun a => a.source == s)) by_url out
    split
    · exact ⟨w, hw, fun x hx => List.mem_of_mem_filter (hmem x hx)⟩
    · obtain ⟨w2, hw2, hmem2⟩ :=
        ih prev total (add_if_needed total (prev.filter (fun a => a.source == s)) by_url out).1
          (add_if_needed total (prev.filter (fun a => a.source == s)) by_url out).2
      refine ⟨w ++ w2, ?_, ?_⟩
      · rw [hw2, hw]; simp
      · intro x hx
        rcases List.mem_append.mp hx with h | h
        · exact List.mem_of_mem_filter (hmem x h)
        · exact hmem2 x h

/-- An element placed just past a prefix shorter than `n` survives `take n`. -/
theorem mem_take_append {α : Type} (b : α) (l1 l2 : List α) (n : Nat)
    (h : l1.length < n) : b ∈ (l1 ++ b :: l2).take n := by
  induction l1 generalizing n with
  | nil =>
    cases n with
    | zero => omega
    | succ m => simp
  | cons x xs ih =>
    cases n with
    | zero => simp at h
    | succ m =>
      simp only [List.cons_append, List.take_succ_cons]
      have hx : xs.length < m := by simp at h; omega
      exact List.mem_cons_of_mem _ (ih m hx)

/-- Every article the topic-fetch loop returns is inside the lead-time
window, provided every already-collected article is. -/
theorem fetch_topic_loop_recent (now : Int) (build : String → Option Article)
    (matches_topic : Article → Bool) (max_results : Nat) :
    ∀ (listing : List Candidate) (collected : List Article),
      (∀ x ∈ collected, now - x.published_at ≤ lead_time) →
      ∀ x ∈ fetch_topic_loop now build matches_topic max_results listing collected,
        now - x.published_at ≤ lead_time := by
  intro listing
  induction listing with
  | nil => intro collected h; simpa [fetch_topic_loop] using h
  | cons item rest ih =>
    intro collected h
    simp only [fetch_topic_loop]
    by_cases hl : lead_time < now - item.listed_at
    · rw [if_pos hl]; exact ih collected h
    · rw [if_neg hl]
      cases hb : build item.url with
      | none => exact ih collected h
      | some article =>
        dsimp only
        by_cases h2 : lead_time < now - article.published_at
        · rw [if_pos h2]; exact ih collected h
        · rw [if_neg h2]
          have hrec : now - article.published_at ≤ lead_time := by omega
          have h1 : ∀ x ∈ collected ++ [article], now - x.published_at ≤ lead_time := by
            intro x hx
            rcases List.mem_append.mp hx with hx | hx
            · exact h x hx
            · simp only [List.mem_singleton] at hx
              subst hx
              exact hrec
          by_cases h3 : (!(matches_topic article)) = true
          · rw [if_pos h3]; exact ih collected h
          · rw [if_neg h3]
            by_cases h4 : max_results ≤ (collected ++ [article]).length
            · rw [if_pos h4]; exact h1
            · rw [if_neg h4]; exact ih (collected ++ [article]) h1

/-- A positive-length prefix of a non-empty list is non-empty. -/
theorem take_ne_nil {α : Type} (l : List α) (n : Nat) (hn : 0 < n) (hl : l ≠ []) :
    l.take n ≠ [] := by
  cases l with
  | nil => exact absurd rfl hl
  | cons x xs =>
    cases n with
    | zero => omega
    | succ m => simp

/-- Claim C2, counterexample: the merge of `fetch_dashboard_articles`
deduplicates by exact URL equality, so two records whose URLs differ only by
a trailing slash — and therefore share a normalized URL — both appear in the
merge output. -/
theorem merge_keeps_normalized_duplicates :
    fetch_dashboard_merge [c2_na] [c2_gcp] [] = [c2_na, c2_gcp] ∧
    normalize_url c2_na.url = normalize_url c2_gcp.url ∧
    c2_na.url ≠ c2_gcp.url := by
  refine ⟨by decide, by decide, by decide⟩

/-- Claim C2 (amended): for every combination of per-source input lists, the
merge output of `fetch_dashboard_articles` contains no two records with the
same exact URL string; records whose URLs differ only in
normalization-removed detail (for example a trailing slash) are not
identified and may both appear. -/
theorem merge_output_urls_pairwise_distinct (na_items gcp_items ag_items : List Article) :
    (fetch_dashboard_merge na_items gcp_items ag_items).Pairwise (fun x y => x.url ≠ y.url) :=
  merge_loop_pairwise _ _ _ _ _ List.Pairwise.nil

/-- Claim C4, counterexample: a total failure of the primary Notícias
Agrícolas adapter is not caught inside `fetch_dashboard_articles` and
propagates to its caller as an exception rather than as an empty list. -/
theorem primary_failure_propagates :
    fetch_dashboard_articles (Except.error ()) (Except.ok []) (Except.ok []) =
      Except.error () := rfl

/-- Claim C4 (amended): a total failure of either secondary adapter (Global
Crop Protection, Agrolink) surfaces to `fetch_dashboard_articles` as an
empty contribution and the merge still returns normally; only the primary
Notícias Agrícolas adapter's failure escapes as an exception. -/
theorem secondary_failure_yields_empty_contribution
    (na_items gcp_items ag_items : List Article) :
    fetch_dashboard_articles (Except.ok na_items) (Except.error ()) (Except.ok ag_items) =
        Except.ok (fetch_dashboard_merge na_items [] ag_items) ∧
    fetch_dashboard_articles (Except.ok na_items) (Except.ok gcp_items) (Except.error ()) =
        Except.ok (fetch_dashboard_merge na_items gcp_items []) ∧
    fetch_dashboard_articles (Except.ok na_items) (Except.error ()) (Except.error ()) =
        Except.ok (fetch_dashboard_merge na_items [] []) :=
  ⟨rfl, rfl, rfl⟩

/-- Claim C5, counterexample: a refresh cycle whose fetch succeeds with zero
articles commits the empty list in the periodic/async paths, replacing a
non-empty cached article list with an empty one. -/
theorem refresh_commits_empty_fetch :
    refresh_news_once ([mk_article "Notícias Agrícolas" "x0"], some 0) 5 (Except.ok []) =
        ([], some 5) ∧
    ([] : List Article) ≠ [mk_article "Notícias Agrícolas" "x0"] := by
  exact ⟨rfl, by decide⟩

/-- Claim C5 (amended): a refresh cycle whose fetch raises leaves the cache
pair unchanged; a refresh whose fetch succeeds commits exactly the fetched
list, even when that list is empty (so an empty successful fetch does clear
the cache in the periodic and async paths); and the forced-refresh path's
completion policy never commits an empty list when the previous cache was
non-empty. -/
theorem refresh_failure_policy :
    (∀ (cache : List Article × Option Int) (now : Int),
        refresh_news_once cache now (Except.error ()) = cache) ∧
    (∀ (cache : List Article × Option Int) (now : Int) (arts : List Article),
        refresh_news_once cache now (Except.ok arts) = (arts, some now)) ∧
    (∀ prev : List Article, prev ≠ [] →
        complete_with_previous_sources [] prev 15 ≠ []) := by
  refine ⟨fun _ _ => rfl, fun _ _ _ => rfl, ?_⟩
  intro prev hprev
  obtain ⟨p, ps, rfl⟩ := List.exists_cons_of_ne_nil hprev
  simp only [complete_with_previous_sources, List.map_nil, List.any_nil, Bool.not_false,
    List.filter_true]
  obtain ⟨w, hw, hwmem⟩ := missing_loop_spec required_sources (p :: ps) 15 [] []
  simp only [List.nil_append] at hw
  rw [hw]
  by_cases hlen : w.length < 15
  · rw [if_pos hlen]
    cases w with
    | nil =>
      simp only [List.map_nil]
      obtain ⟨b, w3, hb, _⟩ := add_if_needed_progress 15 (p :: ps) [] [] (by omega)
          ⟨p, List.mem_cons_self _ _, rfl⟩
      rw [hb]
      exact take_ne_nil _ 15 (by omega) (by simp)
    | cons g gs =>
      obtain ⟨w2, hw2, _⟩ := add_if_needed_spec 15 (p :: ps)
          ((g :: gs).map (fun a => normalize_url a.url)) (g :: gs)
      rw [hw2]
      exact take_ne_nil _ 15 (by omega) (by simp)
  · rw [if_neg hlen]
    have hw0 : w ≠ [] := by
      intro e
      subst e
      simp at hlen
    exact take_ne_nil _ 15 (by omega) hw0

/-- Claim C5, witness for the amended statement at concrete inputs. -/
theorem refresh_failure_policy_witness :
    refresh_news_once ([mk_article "Notícias Agrícolas" "x0"], some 0) 5 (Except.error ()) =
        ([mk_article "Notícias Agrícolas" "x0"], some 0) ∧
    complete_with_previous_sources [] [mk_article "Agrolink" "p0"] 15 ≠ [] :=
  ⟨refresh_failure_policy.1 _ 5, refresh_failure_policy.2.2 _ (by decide)⟩

/-- Claim C6, counterexample: the 15-bound of the article endpoints is keyed
on the current cache contents, not on diversity having been achieved at least
once since process start — after a history whose earlier committed state had
an external source, a current all-primary cache of twelve articles is
truncated to nine, not to fifteen. -/
theorem api_news_bound_not_sticky :
    spec_achieved_once [c6_mixed, c6_na_only] = true ∧
    api_news_articles c6_na_only ≠ c6_na_only.take 15 ∧
    (api_news_articles c6_na_only).length = 9 ∧
    c6_na_only.length = 12 := by
  refine ⟨by decide, by decide, by decide, by decide⟩

/-- Claim C6 (amended): for every read, the returned article list is
truncated to 15 when the current cached list contains an article from a
source other than Notícias Agrícolas, and to 9 otherwise; callers never
receive more than the applicable bound. -/
theorem api_news_length_bound (cache : List Article) :
    (api_news_articles cache).length ≤ (if has_external_sources cache then 15 else 9) := by
  by_cases h : has_external_sources cache <;>
    simp [api_news_articles, h, List.length_take]

/-- Claim C7: every article returned by the primary adapter's topic fetch
has a published timestamp within the lead-time window of the current
instant; in particular a candidate whose built article is older than the
window is excluded even when its listing timestamp was recent. -/
theorem stale_published_excluded (now : Int) (build : String → Option Article)
    (matches_topic : Article → Bool) (max_results : Nat) (listing : List Candidate)
    (a : Article) (hstale : lead_time < now - a.published_at) :
    a ∉ fetch_topic_articles now build matches_topic max_results listing := by
  intro hmem
  have := fetch_topic_loop_recent now build matches_topic max_results listing []
      (by simp) a hmem
  omega

/-- Claim C7, witness: an article published eight days before the current
instant, offered by a candidate whose listing timestamp is current, is
excluded from the topic fetch. -/
theorem stale_published_excluded_witness :
    c7_old_article ∉
      fetch_topic_articles 0 (fun _ => some c7_old_article) (fun _ => true) 1
        [⟨"u", "t", 0⟩] :=
  stale_published_excluded 0 (fun _ => some c7_old_article) (fun _ => true) 1
    [⟨"u", "t", 0⟩] c7_old_article (by decide)

/-- Claim C8, counterexample: the primary Notícias Agrícolas builder does
not reject a document with no extractable publish date — it defaults the
published timestamp to the current instant and returns the article. -/
theorem na_build_defaults_missing_date :
    na_build_article 777 "soja" "u" c8_doc_no_date =
      some ⟨"soja", "Soja", "titulo", "resumo", "u", "img", 777, "Notícias Agrícolas"⟩ := by
  decide

/-- Claim C8 (amended): only the Global Crop Protection builder rejects a
document with no extractable publish date; the Notícias Agrícolas and
Agrolink builders default the published timestamp to the current instant and
include the candidate. -/
theorem build_article_missing_date_policy :
    (∀ (url : String) (doc : Doc), doc.extracted_at = none →
        gcp_build_article url doc = none) ∧
    (∀ (now : Int) (topic_key url img t s : String),
        na_build_article now topic_key url ⟨200, some img, some t, some s, none⟩ =
          some ⟨topic_key, topic_label_of topic_key, t, s, url, img, now,
            "Notícias Agrícolas"⟩) ∧
    (∀ (now : Int) (url img t s : String),
        ∃ a, agrolink_build_article now url ⟨200, some img, some t, some s, none⟩ = some a ∧
          a.published_at = now ∧ a.source = "Agrolink") := by
  refine ⟨?_, ?_, ?_⟩
  · intro url doc h
    rcases doc with ⟨st, img, t, s2, e⟩
    have he : e = none := h
    subst he
    unfold gcp_build_article
    split
    · rfl
    · cases t with
      | none => rfl
      | some t0 =>
        cases img with
        | none => rfl
        | some i0 => rfl
  · intro now topic_key url img t s
    rfl
  · intro now url img t s
    exact ⟨_, rfl, rfl, rfl⟩

/-- Claim C8, witness for the amended statement at concrete inputs. -/
theorem build_article_missing_date_policy_witness :
    gcp_build_article "u" c8_doc_no_date = none ∧
    na_build_article 3 "cafe" "u" ⟨200, some "i", some "t", some "s", none⟩ =
      some ⟨"cafe", topic_label_of "cafe", "t", "s", "u", "i", 3, "Notícias Agrícolas"⟩ ∧
    (∃ a, agrolink_build_article 4 "u" ⟨200, some "i", some "t", some "s", none⟩ = some a ∧
        a.published_at = 4 ∧ a.source = "Agrolink") :=
  ⟨build_article_missing_date_policy.1 "u" c8_doc_no_date rfl,
   build_article_missing_date_policy.2.1 3 "cafe" "u" "i" "t" "s",
   build_article_missing_date_policy.2.2 4 "u" "i" "t" "s"⟩

/-- Claim C9, counterexample: the reader of `get_cached_articles` takes no
lock, so a read whose two dict accesses both fall between the writer's two
stores observes the new article list paired with the old timestamp — a
mismatched pair equal to neither the old nor the new snapshot. -/
theorem torn_read_observation :
    reader_observation c9_old c9_new 1 1 = (c9_new.articles, c9_old.generated_at) ∧
    reader_observation c9_old c9_new 1 1 ≠ (c9_old.articles, c9_old.generated_at) ∧
    reader_observation c9_old c9_new 1 1 ≠ (c9_new.articles, c9_new.generated_at) := by
  refine ⟨by decide, by decide, by decide⟩

/-- Claim C9 (amended): writes to the news cache are serialized under the
lock and replace both fields, so a reader whose two unlocked reads complete
entirely before the write starts, or begin entirely after it finishes,
observes a matched (articles, timestamp) pair; only a reader interleaved
with the write can observe a mismatched pair. -/
theorem non_overlapping_read_consistent (old new : CacheState) :
    reader_observation old new 0 0 = (old.articles, old.generated_at) ∧
    reader_observation old new 2 2 = (new.articles, new.generated_at) :=
  ⟨rfl, rfl⟩

/-- Claim C10: for every pair of article lists and every bound, the
completion policy is a total function whose result never exceeds the bound
(and the URL normalization it applies everywhere is the total function
`normalize_url`). -/
theorem completion_total_and_bounded (fresh prev : List Article) (total : Nat) :
    (complete_with_previous_sources fresh prev total).length ≤ total := by
  simp only [complete_with_previous_sources, List.length_take]
  omega

/-- Claim C1, counterexample: when the fresh merged set already holds 15
articles (fourteen primary, one Global Crop Protection) and Agrolink is the
one missing source, the backfilled Agrolink article from the previous cache
is appended past position 15 and then cut off by the final truncation, so
the committed list contains no Agrolink article even though the previous
cache had one. -/
theorem completion_drops_backfill_at_capacity :
    (c1_prev.any (fun a => a.source == "Agrolink")) = true ∧
    (c1_fresh.any (fun a => a.source == "Agrolink")) = false ∧
    (c1_fresh.any (fun a => a.source == "Notícias Agrícolas")) = true ∧
    (c1_fresh.any (fun a => a.source == "Global Crop Protection")) = true ∧
    c1_fresh.length = 15 ∧
    ((complete_with_previous_sources c1_fresh c1_prev 15).any
        (fun a => a.source == "Agrolink")) = false := by
  refine ⟨by decide, by decide, by decide, by decide, by decide, by decide⟩

/-- Claim C1 (amended): when exactly one required source `s` is absent from
the fresh set, the completed cache contains an article from `s` whenever the
previous cache holds an article of source `s` whose normalized URL does not
already occur among the fresh articles and the fresh set still has room
below the target size of 15. -/
theorem completion_restores_missing_source
    (fresh prev : List Article) (s : String) (a : Article)
    (hs : s ∈ required_sources)
    (hothers : ∀ s2 ∈ required_sources, s2 ≠ s → fresh.any (fun b => b.source == s2) = true)
    (hnos : fresh.any (fun b => b.source == s) = false)
    (ha : a ∈ prev) (hasrc : a.source = s)
    (hurl : (fresh.map (fun b => normalize_url b.url)).contains (normalize_url a.url) = false)
    (hlen : fresh.length < 15) :
    ∃ b ∈ complete_with_previous_sources fresh prev 15, b.source = s := by
  have hmissing :
      required_sources.filter (fun s2 => !(fresh.any (fun b => b.source == s2))) = [s] := by
    have hmem := hs
    simp only [required_sources, List.mem_cons, List.not_mem_nil, or_false] at hmem
    rcases hmem with rfl | rfl | rfl
    · have h2 := hothers "Global Crop Protection" (by simp [required_sources]) (by decide)
      have h3 := hothers "Agrolink" (by simp [required_sources]) (by decide)
      simp [required_sources, List.filter_cons, hnos, h2, h3]
    · have h2 := hothers "Notícias Agrícolas" (by simp [required_sources]) (by decide)
      have h3 := hothers "Agrolink" (by simp [required_sources]) (by decide)
      simp [required_sources, List.filter_cons, hnos, h2, h3]
    · have h2 := hothers "Notícias Agrícolas" (by simp [required_sources]) (by decide)
      have h3 := hothers "Global Crop Protection" (by simp [required_sources]) (by decide)
      simp [required_sources, List.filter_cons, hnos, h2, h3]
  simp only [complete_with_previous_sources, hmissing, missing_loop_single]
  obtain ⟨b, w, hb, hbmem⟩ := add_if_needed_progress 15 (prev.filter (fun x => x.source == s))
      (fresh.map (fun b => normalize_url b.url)) fresh hlen
      ⟨a, List.mem_filter.mpr ⟨ha, by simp [hasrc]⟩, hurl⟩
  have hbsrc : b.source = s := by
    have hsb := (List.mem_filter.mp hbmem).2
    simpa using hsb
  by_cases hr : (add_if_needed 15 (prev.filter (fun x => x.source == s))
      (fresh.map (fun b => normalize_url b.url)) fresh).1.length < 15
  · rw [if_pos hr]
    obtain ⟨w2, hw2, _⟩ := add_if_needed_spec 15 prev
        (add_if_needed 15 (prev.filter (fun x => x.source == s))
          (fresh.map (fun b => normalize_url b.url)) fresh).2
        (add_if_needed 15 (prev.filter (fun x => x.source == s))
          (fresh.map (fun b => normalize_url b.url)) fresh).1
    refine ⟨b, ?_, hbsrc⟩
    rw [hw2, hb, List.append_assoc]
    exact mem_take_append b fresh (w ++ w2) 15 hlen
  · rw [if_neg hr]
    refine ⟨b, ?_, hbsrc⟩
    rw [hb]
    exact mem_take_append b fresh w 15 hlen

/-- Claim C1, witness for the amended statement: a two-article fresh set
(one primary, one Global Crop Protection) backfilled from a previous cache
holding one Agrolink article yields a committed list containing an Agrolink
article. -/
theorem completion_restores_missing_source_witness :
    ∃ b ∈ complete_with_previous_sources c1w_fresh c1_prev 15, b.source = "Agrolink" :=
  completion_restores_missing_source c1w_fresh c1_prev "Agrolink" (mk_article "Agrolink" "p0")
    (by decide) (by decide) (by decide) (by decide) (by decide) (by decide) (by decide)

/-- Claim C3: with source lists A = [a1, a2], B = [b1], C = [c1, c2, c3] of
pairwise-distinct URLs, visited in priority order A, B, C, the merge of
`fetch_dashboard_articles` produces exactly [a1, b1, c1, a2, c2, c3]: one
item per source per round, cursors advancing independently, exhausted
sources skipped, stopping when all sources are exhausted (the 15-bound is
never reached here). -/
theorem merge_round_robin_order (a1 a2 b1 c1 c2 c3 : Article)
    (h : List.Pairwise (fun x y => x.url ≠ y.url) [a1, b1, c1, a2, c2, c3]) :
    fetch_dashboard_merge [a1, a2] [b1] [c1, c2, c3] = [a1, b1, c1, a2, c2, c3] := by
  have p1 := List.pairwise_cons.mp h
  have f1 := p1.1
  have p2 := List.pairwise_cons.mp p1.2
  have f2 := p2.1
  have p3 := List.pairwise_cons.mp p2.2
  have f3 := p3.1
  have p4 := List.pairwise_cons.mp p3.2
  have f4 := p4.1
  have p5 := List.pairwise_cons.mp p4.2
  have f5 := p5.1
  have n12 : a1.url ≠ b1.url := f1 b1 (by simp)
  have n13 : a1.url ≠ c1.url := f1 c1 (by simp)
  have n14 : a1.url ≠ a2.url := f1 a2 (by simp)
  have n15 : a1.url ≠ c2.url := f1 c2 (by simp)
  have n16 : a1.url ≠ c3.url := f1 c3 (by simp)
  have n23 : b1.url ≠ c1.url := f2 c1 (by simp)
  have n24 : b1.url ≠ a2.url := f2 a2 (by simp)
  have n25 : b1.url ≠ c2.url := f2 c2 (by simp)
  have n26 : b1.url ≠ c3.url := f2 c3 (by simp)
  have n34 : c1.url ≠ a2.url := f3 a2 (by simp)
  have n35 : c1.url ≠ c2.url := f3 c2 (by simp)
  have n36 : c1.url ≠ c3.url := f3 c3 (by simp)
  have n45 : a2.url ≠ c2.url := f4 c2 (by simp)
  have n46 : a2.url ≠ c3.url := f4 c3 (by simp)
  have n56 : c2.url ≠ c3.url := f5 c3 (by simp)
  show merge_loop 7 [] [a1, a2] [b1] [c1, c2, c3] = _
  rw [show (7 : Nat) = 6 + 1 from rfl, merge_loop_succ]
  simp only [step_source, append_if_new]
  simp [n12, n13, n14, n15, n16, n23, n24, n25, n26, n34, n35, n36, n45, n46]
  rw [show (6 : Nat) = 5 + 1 from rfl, merge_loop_succ]
  simp only [step_source, append_if_new]
  simp [n12, n13, n14, n15, n16, n23, n24, n25, n26, n34, n35, n36, n45, n46]
  rw [show (5 : Nat) = 4 + 1 from rfl, merge_loop_succ]
  simp only [step_source, append_if_new]
  simp [n12, n13, n14, n15, n16, n23, n24, n25, n26, n34, n35, n36, n45, n46]
  rw [show (4 : Nat) = 3 + 1 from rfl, merge_loop_succ]
  simp [n56]

/-- Claim C3, witness: the round-robin order at concrete articles with
distinct URLs. -/
theorem merge_round_robin_order_witness :
    fetch_dashboard_merge
      [mk_article "Notícias Agrícolas" "a1", mk_article "Notícias Agrícolas" "a2"]
      [mk_article "Global Crop Protection" "b1"]
      [mk_article "Agrolink" "c1", mk_article "Agrolink" "c2", mk_article "Agrolink" "c3"] =
    [mk_article "Notícias Agrícolas" "a1", mk_article "Global Crop Protection" "b1",
     mk_article "Agrolink" "c1", mk_article "Notícias Agrícolas" "a2",
     mk_article "Agrolink" "c2", mk_article "Agrolink" "c3"] :=
  merge_round_robin_order _ _ _ _ _ _ (by decide)
